import Mathlib

/-!
Verification of the AI reframing core of `backend/services/reframer.py`
(class `AIReframer`): crop geometry, face sampling loop, position
smoothing, interpolation, the static render orchestration and the
cleanup behaviour of the external render invocations.

Modelling conventions:
* Python floats are modelled as exact rationals (`ℚ`); the float
  constants `0.5`, `0.4`, `9/16` of the source are the rationals
  `1/2`, `2/5`, `9/16`.
* Python `int(x)` truncates toward zero; it is modelled by `pyInt`.
* Python `//` on integers is floor division, modelled by `Int.fdiv`.
* Effectful parts (OpenCV capture reads, `subprocess.run`, the
  filesystem) are modelled by explicit parameters and state: the frame
  loop takes fuel and the index of the first unreadable frame, the
  render steps take the subprocess outcome and a filesystem as a list
  of paths.
-/

namespace Reframer

/-- Python `int()` applied to a rational: truncation toward zero. -/
def pyInt (q : ℚ) : ℤ := if 0 ≤ q then ⌊q⌋ else ⌈q⌉

theorem pyInt_eq_floor {q : ℚ} (h : 0 ≤ q) : pyInt q = ⌊q⌋ := if_pos h

/-- The `FacePosition` dataclass of `reframer.py`. -/
structure FacePosition where
  frame_num : ℤ
  timestamp : ℚ
  center_x : ℚ
  center_y : ℚ
  width : ℚ
  height : ℚ
  confidence : ℚ
  deriving DecidableEq, Repr, Inhabited

/-- `AIReframer.calculate_dynamic_crop` (reframer.py:341-379).
The third parameter of the source, `target_ratio`, is called
`target_aspect` here; the `padding` parameter of the source is omitted
because its body never uses it.  Returns
`(crop_x, crop_y, crop_width, crop_height)`. -/
def calculate_dynamic_crop (source_width source_height : ℤ)
    (face_x face_y : ℚ) (target_aspect : ℚ) : ℤ × ℤ × ℤ × ℤ :=
  let source_aspect : ℚ := (source_width : ℚ) / (source_height : ℚ)
  let wh : ℤ × ℤ :=
    if target_aspect < source_aspect then
      -- source is wider: crop width
      (pyInt ((source_height : ℚ) * target_aspect), source_height)
    else
      -- source is taller: crop height
      (source_width, pyInt ((source_width : ℚ) / target_aspect))
  let crop_width := wh.1
  let crop_height := wh.2
  let ideal_x := pyInt (face_x * (source_width : ℚ))
  let ideal_y := pyInt (face_y * (source_height : ℚ))
  let crop_x := ideal_x - Int.fdiv crop_width 2
  let crop_y := ideal_y - Int.fdiv crop_height 2
  let crop_x' := max 0 (min crop_x (source_width - crop_width))
  let crop_y' := max 0 (min crop_y (source_height - crop_height))
  (crop_x', crop_y', crop_width, crop_height)

/-- Core geometry facts for `calculate_dynamic_crop`: the rectangle is
clamped inside the source frame and its sides satisfy the truncated
aspect relation. Shared by the claim theorems below. -/
theorem calculate_dynamic_crop_spec (W H : ℤ) (cx cy r : ℚ)
    (hW : 0 < W) (hH : 0 < H) (hr : 0 < r) :
    0 ≤ (calculate_dynamic_crop W H cx cy r).1 ∧
    0 ≤ (calculate_dynamic_crop W H cx cy r).2.1 ∧
    (calculate_dynamic_crop W H cx cy r).1 +
      (calculate_dynamic_crop W H cx cy r).2.2.1 ≤ W ∧
    (calculate_dynamic_crop W H cx cy r).2.1 +
      (calculate_dynamic_crop W H cx cy r).2.2.2 ≤ H ∧
    ((calculate_dynamic_crop W H cx cy r).2.2.1 =
        ⌊((calculate_dynamic_crop W H cx cy r).2.2.2 : ℚ) * r⌋ ∨
      (calculate_dynamic_crop W H cx cy r).2.2.2 =
        ⌊((calculate_dynamic_crop W H cx cy r).2.2.1 : ℚ) / r⌋) := by
  have hHq : (0 : ℚ) < (H : ℚ) := by exact_mod_cast hH
  have hWq : (0 : ℚ) < (W : ℚ) := by exact_mod_cast hW
  simp only [calculate_dynamic_crop]
  by_cases hbr : r < (W : ℚ) / (H : ℚ)
  · -- wider source: crop_width = ⌊H * r⌋, crop_height = H
    simp only [if_pos hbr]
    have hHr0 : (0 : ℚ) ≤ (H : ℚ) * r := le_of_lt (mul_pos hHq hr)
    have hfl : pyInt ((H : ℚ) * r) = ⌊(H : ℚ) * r⌋ := pyInt_eq_floor hHr0
    have hwle : ⌊(H : ℚ) * r⌋ ≤ W := by
      have h1 : (H : ℚ) * r < (W : ℚ) := by
        have := (lt_div_iff₀ hHq).mp hbr
        linarith [this]
      have h2 : (⌊(H : ℚ) * r⌋ : ℚ) ≤ (H : ℚ) * r := Int.floor_le _
      have h3 : (⌊(H : ℚ) * r⌋ : ℚ) < (W : ℚ) := lt_of_le_of_lt h2 h1
      exact le_of_lt (by exact_mod_cast h3)
    refine ⟨le_max_left _ _, le_max_left _ _, ?_, ?_, ?_⟩
    · rw [hfl]
      have hsub : (0 : ℤ) ≤ W - ⌊(H : ℚ) * r⌋ := sub_nonneg.mpr hwle
      have : max 0 (min (pyInt (cx * (W : ℚ)) - Int.fdiv ⌊(H : ℚ) * r⌋ 2)
          (W - ⌊(H : ℚ) * r⌋)) ≤ W - ⌊(H : ℚ) * r⌋ :=
        max_le hsub (min_le_right _ _)
      omega
    · have : max 0 (min (pyInt (cy * (H : ℚ)) - Int.fdiv H 2) (H - H)) ≤ H - H :=
        max_le (by omega) (min_le_right _ _)
      omega
    · left
      rw [hfl]
  · -- taller source: crop_width = W, crop_height = ⌊W / r⌋
    simp only [if_neg hbr]
    have hWr0 : (0 : ℚ) ≤ (W : ℚ) / r := le_of_lt (div_pos hWq hr)
    have hfl : pyInt ((W : ℚ) / r) = ⌊(W : ℚ) / r⌋ := pyInt_eq_floor hWr0
    have hhle : ⌊(W : ℚ) / r⌋ ≤ H := by
      have h0 : (W : ℚ) / (H : ℚ) ≤ r := not_lt.mp hbr
      have h1 : (W : ℚ) ≤ r * (H : ℚ) := by
        have := (div_le_iff₀ hHq).mp h0
        linarith [this]
      have h2 : (W : ℚ) / r ≤ (H : ℚ) := (div_le_iff₀ hr).mpr (by linarith [h1])
      have h3 : (⌊(W : ℚ) / r⌋ : ℚ) ≤ (H : ℚ) := le_trans (Int.floor_le _) h2
      exact_mod_cast h3
    refine ⟨le_max_left _ _, le_max_left _ _, ?_, ?_, ?_⟩
    · have : max 0 (min (pyInt (cx * (W : ℚ)) - Int.fdiv W 2) (W - W)) ≤ W - W :=
        max_le (by omega) (min_le_right _ _)
      omega
    · rw [hfl]
      have hsub : (0 : ℤ) ≤ H - ⌊(W : ℚ) / r⌋ := sub_nonneg.mpr hhle
      have : max 0 (min (pyInt (cy * (H : ℚ)) - Int.fdiv ⌊(W : ℚ) / r⌋ 2)
          (H - ⌊(W : ℚ) / r⌋)) ≤ H - ⌊(W : ℚ) / r⌋ :=
        max_le hsub (min_le_right _ _)
      omega
    · right
      rw [hfl]

/-- `sample_frames = int(sample_interval * fps)` (reframer.py:192): the
frame-index step between consecutive sampled frames. -/
def sample_frames (sample_interval fps : ℚ) : ℤ := pyInt (sample_interval * fps)

/-- The sampling loop of `AIReframer.detect_faces_in_video`
(reframer.py:202-227), fuel-indexed.  Each iteration reads the frame at
`frame_num` (a read fails — `ret` falsy — once `frame_num` is at or past
`total_frames`, modelling the end of the container) and then advances by
`step` via `cap.set`.  Returns the sampled frame indices, or `none` when
`fuel` iterations were not enough to leave the loop. -/
def detect_loop_run : ℕ → ℤ → ℤ → ℤ → ℤ → Option (List ℤ)
  | 0, _, _, _, _ => none
  | fuel + 1, frame_num, end_frame, step, total_frames =>
    if frame_num < end_frame then
      if frame_num < total_frames then
        (detect_loop_run fuel (frame_num + step) end_frame step total_frames).map
          (fun l => frame_num :: l)
      else some []
    else some []

/-- `b` is the sampled frame right after `a`. -/
def advances_by (step a b : ℤ) : Prop := b = a + step

/-- `np.pad(data, (k, k), mode="edge")` (reframer.py:257): edge
replication padding.  (`np.pad` rejects an empty array in edge mode; the
only caller passes a list of length at least 3.) -/
def edge_pad (data : List ℚ) (k : ℕ) : List ℚ :=
  match data with
  | [] => []
  | d :: _ => List.replicate k d ++ data ++ List.replicate k (data.getLastD d)

/-- The `moving_average` closure of `AIReframer.smooth_positions`
(reframer.py:254-259): centered moving average over edge-padded data,
truncated back to the input length. -/
def moving_average (data : List ℚ) (window : ℕ) : List ℚ :=
  let padded := edge_pad data (window / 2)
  (List.range data.length).map (fun i => ((padded.drop i).take window).sum / (window : ℚ))

/-- `AIReframer.smooth_positions` (reframer.py:237-277). -/
def smooth_positions (positions : List FacePosition) (smoothing_window : ℕ) :
    List FacePosition :=
  if positions.length < 3 then positions
  else
    let smooth_x := moving_average (positions.map (fun p => p.center_x)) smoothing_window
    let smooth_y := moving_average (positions.map (fun p => p.center_y)) smoothing_window
    positions.mapIdx (fun i pos =>
      { pos with center_x := smooth_x.getD i 0, center_y := smooth_y.getD i 0 })

theorem edge_pad_length (data : List ℚ) (k : ℕ) (hne : data ≠ []) :
    (edge_pad data k).length = data.length + 2 * k := by
  cases data with
  | nil => exact absurd rfl hne
  | cons d t =>
    simp only [edge_pad, List.length_append, List.length_replicate, List.length_cons]
    omega

theorem edge_pad_mem (c : ℚ) (data : List ℚ) (k : ℕ)
    (hconst : ∀ x ∈ data, x = c) : ∀ x ∈ edge_pad data k, x = c := by
  cases data with
  | nil => intro x hx; simp [edge_pad] at hx
  | cons d t =>
    intro x hx
    simp only [edge_pad, List.mem_append, List.mem_replicate] at hx
    rcases hx with (hx | hx) | hx
    · rw [hx.2]; exact hconst d (by simp)
    · exact hconst x hx
    · have hmem : (d :: t).getLastD d ∈ d :: (d :: t) := List.getLastD_mem_cons _ _
      rcases List.mem_cons.mp hmem with h | h
      · rw [hx.2, h]; exact hconst d (by simp)
      · rw [hx.2]; exact hconst _ h

theorem sum_of_const_list (c : ℚ) (l : List ℚ) (hl : ∀ x ∈ l, x = c) :
    l.sum = l.length * c := by
  induction l with
  | nil => simp
  | cons a t ih =>
    have ha : a = c := hl a (by simp)
    have ih' := ih (fun x hx => hl x (by simp [hx]))
    simp only [List.sum_cons, ih', ha, List.length_cons]
    push_cast
    ring

theorem moving_average_length (data : List ℚ) (w : ℕ) :
    (moving_average data w).length = data.length := by
  simp [moving_average]

/-- A centered moving average of a constant sequence is that constant at
every index. -/
theorem moving_average_const (c : ℚ) (data : List ℚ) (w : ℕ) (hw : 1 ≤ w)
    (hconst : ∀ x ∈ data, x = c) (i : ℕ) (hi : i < data.length) :
    (moving_average data w).getD i 0 = c := by
  have hne : data ≠ [] := by
    intro h
    rw [h] at hi
    simp at hi
  have hlen : (edge_pad data (w / 2)).length = data.length + 2 * (w / 2) :=
    edge_pad_length data (w / 2) hne
  have hslice_len : (((edge_pad data (w / 2)).drop i).take w).length = w := by
    rw [List.length_take, List.length_drop, hlen]
    omega
  have hslice_mem : ∀ x ∈ ((edge_pad data (w / 2)).drop i).take w, x = c := fun x hx =>
    edge_pad_mem c data (w / 2) hconst x (List.mem_of_mem_drop (List.mem_of_mem_take hx))
  have hsum : (((edge_pad data (w / 2)).drop i).take w).sum = (w : ℚ) * c := by
    rw [sum_of_const_list c _ hslice_mem, hslice_len]
  have hi' : i < (moving_average data w).length := by
    rw [moving_average_length]
    exact hi
  rw [List.getD_eq_getElem _ _ hi']
  simp only [moving_average, List.getElem_map, List.getElem_range, hsum]
  have hw0 : ((w : ℚ)) ≠ 0 := by
    exact_mod_cast Nat.one_le_iff_ne_zero.mp hw
  field_simp

theorem smooth_positions_length (ps : List FacePosition) (w : ℕ) :
    (smooth_positions ps w).length = ps.length := by
  unfold smooth_positions
  by_cases h : ps.length < 3
  · rw [if_pos h]
  · rw [if_neg h]
    simp

/-- `smooth_positions` only rewrites `center_x`/`center_y`: every other
field of the `i`-th output equals that of the `i`-th input. -/
theorem smooth_positions_fields (ps : List FacePosition) (w : ℕ) (i : ℕ)
    (hi : i < ps.length) :
    ((smooth_positions ps w).getD i default).frame_num = (ps.getD i default).frame_num ∧
    ((smooth_positions ps w).getD i default).timestamp = (ps.getD i default).timestamp ∧
    ((smooth_positions ps w).getD i default).width = (ps.getD i default).width ∧
    ((smooth_positions ps w).getD i default).height = (ps.getD i default).height ∧
    ((smooth_positions ps w).getD i default).confidence = (ps.getD i default).confidence := by
  by_cases h : ps.length < 3
  · unfold smooth_positions
    rw [if_pos h]
    exact ⟨rfl, rfl, rfl, rfl, rfl⟩
  · have hi' : i < (smooth_positions ps w).length := by
      rw [smooth_positions_length]
      exact hi
    rw [List.getD_eq_getElem _ _ hi', List.getD_eq_getElem _ _ hi]
    simp [smooth_positions, if_neg h, List.getElem_mapIdx]

/-- `np.linspace(a, b, n)`: `n` evenly spaced points from `a` to `b`,
endpoints included. -/
def linspace (a b : ℚ) (n : ℕ) : List ℚ :=
  if n = 0 then []
  else if n = 1 then [a]
  else (List.range n).map (fun (i : ℕ) => a + (b - a) * (i : ℚ) / ((n : ℚ) - 1))

/-- `np.interp(t, xp, fp)` on the list of `(xp, fp)` pairs: piecewise
linear interpolation, clamped to the edge values outside the sampled
range. -/
def np_interp (t : ℚ) : List (ℚ × ℚ) → ℚ
  | [] => 0
  | [(_, y)] => y
  | (x1, y1) :: (x2, y2) :: rest =>
    if t ≤ x1 then y1
    else if t ≤ x2 then y1 + (y2 - y1) * (t - x1) / (x2 - x1)
    else np_interp t ((x2, y2) :: rest)

/-- `AIReframer.interpolate_positions` (reframer.py:279-310): one
`(timestamp, center_x, center_y)` tuple per output frame; the fixed
default center `(0.5, 0.4)` when no positions were detected. -/
def interpolate_positions (positions : List FacePosition)
    (fps start_time end_time : ℚ) : List (ℚ × ℚ × ℚ) :=
  if positions = [] then
    let num_frames := (pyInt ((end_time - start_time) * fps)).toNat
    (List.range num_frames).map (fun (i : ℕ) => (start_time + (i : ℚ) / fps, 1/2, 2/5))
  else
    let num_frames := (pyInt ((end_time - start_time) * fps)).toNat
    let frame_times := linspace start_time end_time num_frames
    frame_times.map (fun t =>
      (t, np_interp t (positions.map (fun p => (p.timestamp, p.center_x))),
          np_interp t (positions.map (fun p => (p.timestamp, p.center_y)))))

/-- The dictionary returned by `AIReframer.cut_clip_with_tracking`
(reframer.py:527-540), minus the output path string. -/
structure ClipResult where
  start_time : ℚ
  end_time : ℚ
  duration : ℚ
  tracking_enabled : Bool
  faces_detected : ℕ
  crop_info : ℤ × ℤ × ℤ × ℤ
  deriving DecidableEq, Repr

/-- The decision logic and returned metadata of
`AIReframer.cut_clip_with_tracking` (reframer.py:407-540).
`detector_available` models `self.face_detector is not None`;
`sampled_positions` is what `detect_faces_in_video` returns when it is
called (it is only called when tracking is enabled and the detector is
available).  The ffmpeg invocation itself is modelled separately by
`run_static_render`. -/
def cut_clip_with_tracking (source_width source_height : ℤ)
    (start_time end_time : ℚ) (enable_tracking detector_available : Bool)
    (sampled_positions : List FacePosition) : ClipResult :=
  let face_positions :=
    if enable_tracking && detector_available then sampled_positions else []
  let crop :=
    if enable_tracking && detector_available then
      if face_positions ≠ [] then
        let smoothed := smooth_positions face_positions 5
        let avg_x := (smoothed.map (fun p => p.center_x)).sum / (smoothed.length : ℚ)
        let avg_y := (smoothed.map (fun p => p.center_y)).sum / (smoothed.length : ℚ)
        calculate_dynamic_crop source_width source_height avg_x avg_y (9/16)
      else
        calculate_dynamic_crop source_width source_height (1/2) (2/5) (9/16)
    else
      calculate_dynamic_crop source_width source_height (1/2) (2/5) (9/16)
  { start_time := start_time
    end_time := end_time
    duration := end_time - start_time
    tracking_enabled := enable_tracking && detector_available
    faces_detected :=
      if enable_tracking && detector_available then face_positions.length else 0
    crop_info := crop }

/-- Outcome of one external `subprocess.run` ffmpeg invocation:
its exit status, its diagnostic stderr text, and whether it left a
(possibly truncated) output file behind. -/
structure ProcOutcome where
  exit_ok : Bool
  stderr : String
  wrote_output : Bool
  deriving DecidableEq, Repr

/-- Result of a render step: success or a raised `RuntimeError`, in both
cases together with the filesystem (a list of paths) afterwards. -/
inductive RenderResult where
  | ok (fs : List String)
  | failed (msg : String) (fs : List String)
  deriving DecidableEq, Repr

def RenderResult.isFailed : RenderResult → Bool
  | .ok _ => false
  | .failed _ _ => true

def RenderResult.message : RenderResult → String
  | .ok _ => ""
  | .failed msg _ => msg

def RenderResult.fsAfter : RenderResult → List String
  | .ok fs => fs
  | .failed _ fs => fs

/-- The subprocess / cleanup tail of `AIReframer.cut_clip_with_tracking`
(reframer.py:507-523): on a non-zero exit, unlink the output file if it
exists and raise with the stderr text; on success, verify the output
file exists. -/
def run_static_render (fs : List String) (output_path : String)
    (proc : ProcOutcome) : RenderResult :=
  let fs1 := if proc.wrote_output then output_path :: fs else fs
  if proc.exit_ok then
    if output_path ∈ fs1 then .ok fs1
    else .failed ("FFmpeg completed but output file not found: " ++ output_path) fs1
  else
    .failed ("Failed to cut clip with tracking: " ++ proc.stderr)
      (fs1.filter (fun p => p != output_path))

/-- With a positive step, the sampling loop leaves the `while` within
`(end_frame - frame_num).toNat + 1` iterations. -/
theorem detect_loop_run_isSome (step end_frame total_frames : ℤ) (hstep : 1 ≤ step) :
    ∀ (fuel : ℕ) (frame_num : ℤ), (end_frame - frame_num).toNat < fuel →
      (detect_loop_run fuel frame_num end_frame step total_frames).isSome = true := by
  intro fuel
  induction fuel with
  | zero => intro frame_num h; omega
  | succ n ih =>
    intro frame_num h
    simp only [detect_loop_run]
    by_cases h1 : frame_num < end_frame
    · rw [if_pos h1]
      by_cases h2 : frame_num < total_frames
      · rw [if_pos h2]
        have hrec := ih (frame_num + step) (by omega)
        cases hmo : detect_loop_run n (frame_num + step) end_frame step total_frames with
        | none => rw [hmo] at hrec; simp at hrec
        | some l => simp
      · rw [if_neg h2]; rfl
    · rw [if_neg h1]; rfl

/-- With step `0` and a readable frame before the end frame, no amount
of fuel finishes the sampling loop: it rereads the same frame forever. -/
theorem detect_loop_run_stuck (frame_num end_frame total_frames : ℤ)
    (h1 : frame_num < end_frame) (h2 : frame_num < total_frames) :
    ∀ fuel, detect_loop_run fuel frame_num end_frame 0 total_frames = none := by
  intro fuel
  induction fuel with
  | zero => rfl
  | succ n ih =>
    simp only [detect_loop_run, if_pos h1, if_pos h2, add_zero, ih]
    rfl

/-- In any completed run of the sampling loop, consecutive sampled frame
indices differ by exactly `step`, and the first one is the start frame. -/
theorem detect_loop_run_chain (step end_frame total_frames : ℤ) :
    ∀ (fuel : ℕ) (frame_num : ℤ) (l : List ℤ),
      detect_loop_run fuel frame_num end_frame step total_frames = some l →
      l.Chain' (advances_by step) ∧ ∀ x ∈ l.head?, x = frame_num := by
  intro fuel
  induction fuel with
  | zero => intro frame_num l h; simp [detect_loop_run] at h
  | succ n ih =>
    intro frame_num l h
    simp only [detect_loop_run] at h
    by_cases h1 : frame_num < end_frame
    · rw [if_pos h1] at h
      by_cases h2 : frame_num < total_frames
      · rw [if_pos h2] at h
        cases hmo : detect_loop_run n (frame_num + step) end_frame step total_frames with
        | none => rw [hmo] at h; simp at h
        | some l' =>
          rw [hmo] at h
          simp only [Option.map_some', Option.some.injEq] at h
          obtain ⟨hc, hh⟩ := ih (frame_num + step) l' hmo
          subst h
          refine ⟨?_, ?_⟩
          · cases l' with
            | nil => exact List.chain'_singleton _
            | cons b t =>
              have hb : b = frame_num + step := hh b (by simp)
              exact List.chain'_cons.mpr ⟨hb, hc⟩
          · intro x hx
            simp only [List.head?_cons, Option.mem_def, Option.some.injEq] at hx
            omega
      · rw [if_neg h2] at h
        cases h
        exact ⟨List.chain'_nil, by simp⟩
    · rw [if_neg h1] at h
      cases h
      exact ⟨List.chain'_nil, by simp⟩

/-- The audio-mux tail of `AIReframer.cut_clip_with_dynamic_tracking`
(reframer.py:661-679): on a non-zero exit, unlink both the silent
intermediate file and the output file and raise with the stderr text;
the `finally` block always unlinks the intermediate file. -/
def run_dynamic_mux (fs : List String) (temp_path output_path : String)
    (proc : ProcOutcome) : RenderResult :=
  let fs1 := if proc.wrote_output then output_path :: fs else fs
  if proc.exit_ok then
    .ok (fs1.filter (fun p => p != temp_path))
  else
    .failed ("Failed to add audio: " ++ proc.stderr)
      ((fs1.filter (fun p => p != temp_path)).filter (fun p => p != output_path))

/-- C1: for every `source_w > 0`, `source_h > 0`, `target_ratio > 0` and
normalized center `(cx, cy)` in `[0,1]²`, the rectangle returned by
`calculate_dynamic_crop` satisfies `x ≥ 0`, `y ≥ 0`,
`x + width ≤ source_w`, `y + height ≤ source_h`, and width/height equals
the target ratio within integer truncation:
`width = ⌊height * ratio⌋` or `height = ⌊width / ratio⌋`. -/
theorem crop_bounds_and_aspect (W H : ℤ) (cx cy r : ℚ)
    (hW : 0 < W) (hH : 0 < H) (hr : 0 < r)
    (_hcx0 : 0 ≤ cx) (_hcx1 : cx ≤ 1) (_hcy0 : 0 ≤ cy) (_hcy1 : cy ≤ 1) :
    0 ≤ (calculate_dynamic_crop W H cx cy r).1 ∧
    0 ≤ (calculate_dynamic_crop W H cx cy r).2.1 ∧
    (calculate_dynamic_crop W H cx cy r).1 +
      (calculate_dynamic_crop W H cx cy r).2.2.1 ≤ W ∧
    (calculate_dynamic_crop W H cx cy r).2.1 +
      (calculate_dynamic_crop W H cx cy r).2.2.2 ≤ H ∧
    ((calculate_dynamic_crop W H cx cy r).2.2.1 =
        ⌊((calculate_dynamic_crop W H cx cy r).2.2.2 : ℚ) * r⌋ ∨
      (calculate_dynamic_crop W H cx cy r).2.2.2 =
        ⌊((calculate_dynamic_crop W H cx cy r).2.2.1 : ℚ) / r⌋) :=
  calculate_dynamic_crop_spec W H cx cy r hW hH hr

/-- Witness for `crop_bounds_and_aspect` at source 1920×1080, center
(0.3, 0.4), ratio 9/16. -/
theorem crop_bounds_and_aspect_witness :
    0 ≤ (calculate_dynamic_crop 1920 1080 (3/10) (2/5) (9/16)).1 ∧
    0 ≤ (calculate_dynamic_crop 1920 1080 (3/10) (2/5) (9/16)).2.1 ∧
    (calculate_dynamic_crop 1920 1080 (3/10) (2/5) (9/16)).1 +
      (calculate_dynamic_crop 1920 1080 (3/10) (2/5) (9/16)).2.2.1 ≤ 1920 ∧
    (calculate_dynamic_crop 1920 1080 (3/10) (2/5) (9/16)).2.1 +
      (calculate_dynamic_crop 1920 1080 (3/10) (2/5) (9/16)).2.2.2 ≤ 1080 ∧
    ((calculate_dynamic_crop 1920 1080 (3/10) (2/5) (9/16)).2.2.1 =
        ⌊((calculate_dynamic_crop 1920 1080 (3/10) (2/5) (9/16)).2.2.2 : ℚ) * (9/16)⌋ ∨
      (calculate_dynamic_crop 1920 1080 (3/10) (2/5) (9/16)).2.2.2 =
        ⌊((calculate_dynamic_crop 1920 1080 (3/10) (2/5) (9/16)).2.2.1 : ℚ) / (9/16)⌋) :=
  crop_bounds_and_aspect 1920 1080 (3/10) (2/5) (9/16) (by decide) (by decide)
    (by norm_num) (by norm_num) (by norm_num) (by norm_num) (by norm_num)

/-- C3 counterexample: at source 1920×1080, center (0.5, 0.5), target
ratio 9/16 the rectangle produced by `calculate_dynamic_crop` is
607×1080, and 607/1080 is not exactly 9/16 — width/height does not equal
the target aspect ratio exactly. -/
theorem crop_aspect_not_exact_cex :
    (((calculate_dynamic_crop 1920 1080 (1/2) (1/2) (9/16)).2.2.1 : ℚ) /
        ((calculate_dynamic_crop 1920 1080 (1/2) (1/2) (9/16)).2.2.2 : ℚ)) ≠ 9/16 := by
  have h : calculate_dynamic_crop 1920 1080 (1/2) (1/2) (9/16) = (657, 0, 607, 1080) := by
    norm_num [calculate_dynamic_crop, pyInt, Int.fdiv]
  rw [h]
  norm_num

/-- C3 amended: for every rectangle produced with positive source sides
and target ratio, width/height equals the target ratio within integer
truncation — `width = ⌊height * ratio⌋` or `height = ⌊width / ratio⌋` —
not exactly. -/
theorem crop_aspect_truncation (W H : ℤ) (cx cy r : ℚ)
    (hW : 0 < W) (hH : 0 < H) (hr : 0 < r) :
    (calculate_dynamic_crop W H cx cy r).2.2.1 =
        ⌊((calculate_dynamic_crop W H cx cy r).2.2.2 : ℚ) * r⌋ ∨
      (calculate_dynamic_crop W H cx cy r).2.2.2 =
        ⌊((calculate_dynamic_crop W H cx cy r).2.2.1 : ℚ) / r⌋ :=
  (calculate_dynamic_crop_spec W H cx cy r hW hH hr).2.2.2.2

/-- Witness for `crop_aspect_truncation` at source 1280×720, center
(0.5, 0.5), ratio 9/16. -/
theorem crop_aspect_truncation_witness :
    (calculate_dynamic_crop 1280 720 (1/2) (1/2) (9/16)).2.2.1 =
        ⌊((calculate_dynamic_crop 1280 720 (1/2) (1/2) (9/16)).2.2.2 : ℚ) * (9/16)⌋ ∨
      (calculate_dynamic_crop 1280 720 (1/2) (1/2) (9/16)).2.2.2 =
        ⌊((calculate_dynamic_crop 1280 720 (1/2) (1/2) (9/16)).2.2.1 : ℚ) / (9/16)⌋ :=
  crop_aspect_truncation 1280 720 (1/2) (1/2) (9/16) (by decide) (by decide) (by norm_num)

/-- C5: the crop calculator at source 1920×1080, center (0.5, 0.5) and
target ratio 9/16 returns exactly the rectangle
(x = 657, y = 0, width = 607, height = 1080). -/
theorem crop_offcenter_case :
    calculate_dynamic_crop 1920 1080 (1/2) (1/2) (9/16) = (657, 0, 607, 1080) := by
  norm_num [calculate_dynamic_crop, pyInt, Int.fdiv]

/-- C2 counterexample: with tracking enabled, the detector available and
zero sampled faces, the result of `cut_clip_with_tracking` reports its
tracking flag (`tracking_enabled`, the source's `tracking_was_used`) as
`true`, not `false` as the claim states. -/
theorem static_zero_faces_flag_cex :
    (cut_clip_with_tracking 1920 1080 0 10 true true []).tracking_enabled ≠ false := by
  simp [cut_clip_with_tracking]

/-- C2 amended: when tracking is enabled, the detector is available and
sampling found zero faces, the result reports its tracking flag as
`true` (the source sets `tracking_was_used = enable_tracking and
detector is not None`, irrespective of whether faces were found),
`faces_detected = 0`, and the crop equals the rectangle computed for the
fixed default center (0.5, 0.4) at the source size. -/
theorem static_zero_faces_result (W H : ℤ) (s e : ℚ) :
    (cut_clip_with_tracking W H s e true true []).tracking_enabled = true ∧
      (cut_clip_with_tracking W H s e true true []).faces_detected = 0 ∧
      (cut_clip_with_tracking W H s e true true []).crop_info =
        calculate_dynamic_crop W H (1/2) (2/5) (9/16) := by
  refine ⟨rfl, rfl, ?_⟩
  simp [cut_clip_with_tracking]

/-- C4 counterexample: the sampling step used by the face-sampling loop
is `int(sample_interval * fps)` — truncation — not
`round(sample_interval * fps)`: at `fps = 29.97`, `interval = 0.5` the
step is 14 while rounding would give 15. -/
theorem sample_step_not_round_cex :
    sample_frames (1/2) (2997/100) ≠ round (((1 : ℚ)/2) * (2997/100)) := by
  norm_num [sample_frames, pyInt, round_eq]

/-- C4 amended: between consecutive sampled frames the frame index
advances by exactly `int(sample_interval * fps)` frames (truncation
toward zero); for `fps = 29.97` and `interval = 0.5` the step is 14
frames, not 15. -/
theorem sample_step_truncation (i fps : ℚ) :
    (∀ (fuel : ℕ) (frame_num end_frame total_frames : ℤ) (l : List ℤ),
        detect_loop_run fuel frame_num end_frame (sample_frames i fps) total_frames =
          some l →
        l.Chain' (advances_by (sample_frames i fps))) ∧
      sample_frames (1/2) (2997/100) = 14 := by
  constructor
  · intro fuel frame_num end_frame total_frames l h
    exact (detect_loop_run_chain (sample_frames i fps) end_frame total_frames
      fuel frame_num l h).1
  · norm_num [sample_frames, pyInt]

/-- Witness for `sample_step_truncation`: a concrete completed run at
`fps = 29.97`, `interval = 0.5` samples frames 0, 14, 28. -/
theorem sample_step_truncation_witness :
    List.Chain' (advances_by (sample_frames (1/2) (2997/100))) [0, 14, 28] ∧
      sample_frames (1/2) (2997/100) = 14 := by
  have hstep : sample_frames (1/2) (2997/100) = 14 := by norm_num [sample_frames, pyInt]
  refine ⟨?_, hstep⟩
  apply (sample_step_truncation (1/2) (2997/100)).1 4 0 30 1000
  rw [hstep]
  decide

/-- C6: smoothing a position list whose positions all share one center
returns that same constant center at every index, for every window size
≥ 1; and smoothing any list of fewer than 3 positions returns the input
unchanged. -/
theorem smooth_constant_and_short (ps : List FacePosition) (w : ℕ) (cx cy : ℚ) :
    (1 ≤ w → (∀ p ∈ ps, p.center_x = cx ∧ p.center_y = cy) →
      ∀ q ∈ smooth_positions ps w, q.center_x = cx ∧ q.center_y = cy) ∧
    (ps.length < 3 → smooth_positions ps w = ps) := by
  constructor
  · intro hw hconst q hq
    by_cases h : ps.length < 3
    · unfold smooth_positions at hq
      rw [if_pos h] at hq
      exact hconst q hq
    · simp only [smooth_positions, if_neg h] at hq
      rw [List.mapIdx_eq_ofFn, List.mem_ofFn] at hq
      obtain ⟨i, hi⟩ := hq
      subst hi
      have hx : ∀ x ∈ ps.map (fun p => p.center_x), x = cx := by
        intro x hx
        obtain ⟨p, hp, rfl⟩ := List.mem_map.mp hx
        exact (hconst p hp).1
      have hy : ∀ x ∈ ps.map (fun p => p.center_y), x = cy := by
        intro x hx
        obtain ⟨p, hp, rfl⟩ := List.mem_map.mp hx
        exact (hconst p hp).2
      constructor
      · exact moving_average_const cx _ w hw hx i (by simp)
      · exact moving_average_const cy _ w hw hy i (by simp)
  · intro h
    unfold smooth_positions
    rw [if_pos h]

/-- Witness for `smooth_constant_and_short`: three equal positions with
center (1, 1) stay at (1, 1) under window 5; a singleton is unchanged. -/
theorem smooth_constant_and_short_witness :
    ((smooth_positions [⟨0, 0, 1, 1, 0, 0, 1⟩, ⟨0, 0, 1, 1, 0, 0, 1⟩,
        ⟨0, 0, 1, 1, 0, 0, 1⟩] 5).getD 0 default).center_x = 1 ∧
      ((smooth_positions [⟨0, 0, 1, 1, 0, 0, 1⟩, ⟨0, 0, 1, 1, 0, 0, 1⟩,
        ⟨0, 0, 1, 1, 0, 0, 1⟩] 5).getD 0 default).center_y = 1 ∧
      smooth_positions [⟨0, 0, 1, 1, 0, 0, 1⟩] 5 = [⟨0, 0, 1, 1, 0, 0, 1⟩] := by
  have h0 : 0 < (smooth_positions [(⟨0, 0, 1, 1, 0, 0, 1⟩ : FacePosition),
      ⟨0, 0, 1, 1, 0, 0, 1⟩, ⟨0, 0, 1, 1, 0, 0, 1⟩] 5).length := by
    rw [smooth_positions_length]
    decide
  have hmem : (smooth_positions [(⟨0, 0, 1, 1, 0, 0, 1⟩ : FacePosition),
      ⟨0, 0, 1, 1, 0, 0, 1⟩, ⟨0, 0, 1, 1, 0, 0, 1⟩] 5).getD 0 default ∈
      smooth_positions [(⟨0, 0, 1, 1, 0, 0, 1⟩ : FacePosition),
      ⟨0, 0, 1, 1, 0, 0, 1⟩, ⟨0, 0, 1, 1, 0, 0, 1⟩] 5 := by
    rw [List.getD_eq_getElem _ _ h0]
    exact List.getElem_mem h0
  have hconst : ∀ p ∈ [(⟨0, 0, 1, 1, 0, 0, 1⟩ : FacePosition),
      ⟨0, 0, 1, 1, 0, 0, 1⟩, ⟨0, 0, 1, 1, 0, 0, 1⟩],
      p.center_x = 1 ∧ p.center_y = 1 := by
    intro p hp
    simp only [List.mem_cons, List.not_mem_nil, or_false] at hp
    rcases hp with rfl | rfl | rfl <;> exact ⟨rfl, rfl⟩
  have hmain := (smooth_constant_and_short [(⟨0, 0, 1, 1, 0, 0, 1⟩ : FacePosition),
      ⟨0, 0, 1, 1, 0, 0, 1⟩, ⟨0, 0, 1, 1, 0, 0, 1⟩] 5 1 1).1 (by decide) hconst _ hmem
  have hshort := (smooth_constant_and_short [(⟨0, 0, 1, 1, 0, 0, 1⟩ : FacePosition)]
      5 1 1).2 (by decide)
  exact ⟨hmain.1, hmain.2, hshort⟩

/-- C7: the smoother returns a list of the same length in the same
order, in which element `i` agrees with input element `i` on
`frame_num`, `timestamp`, `width`, `height` and `confidence` (only
`center_x`/`center_y` may differ).  The embedding is purely functional,
like the source function, which builds a fresh list of fresh
`FacePosition` values and never writes to its input. -/
theorem smooth_same_length_and_fields (ps : List FacePosition) (w : ℕ) :
    (smooth_positions ps w).length = ps.length ∧
      ∀ i, i < ps.length →
        ((smooth_positions ps w).getD i default).frame_num =
          (ps.getD i default).frame_num ∧
        ((smooth_positions ps w).getD i default).timestamp =
          (ps.getD i default).timestamp ∧
        ((smooth_positions ps w).getD i default).width = (ps.getD i default).width ∧
        ((smooth_positions ps w).getD i default).height = (ps.getD i default).height ∧
        ((smooth_positions ps w).getD i default).confidence =
          (ps.getD i default).confidence :=
  ⟨smooth_positions_length ps w, fun i hi => smooth_positions_fields ps w i hi⟩

/-- Witness for `smooth_same_length_and_fields` on a concrete
three-element list at index 0. -/
theorem smooth_same_length_and_fields_witness :
    (smooth_positions [⟨1, 2, 0, 0, 3, 4, 5⟩, ⟨2, 3, 1, 0, 3, 4, 5⟩,
        ⟨3, 4, 0, 1, 3, 4, 5⟩] 5).length =
      ([⟨1, 2, 0, 0, 3, 4, 5⟩, ⟨2, 3, 1, 0, 3, 4, 5⟩,
        ⟨3, 4, 0, 1, 3, 4, 5⟩] : List FacePosition).length ∧
      ((smooth_positions [⟨1, 2, 0, 0, 3, 4, 5⟩, ⟨2, 3, 1, 0, 3, 4, 5⟩,
          ⟨3, 4, 0, 1, 3, 4, 5⟩] 5).getD 0 default).frame_num =
        (([⟨1, 2, 0, 0, 3, 4, 5⟩, ⟨2, 3, 1, 0, 3, 4, 5⟩,
          ⟨3, 4, 0, 1, 3, 4, 5⟩] : List FacePosition).getD 0 default).frame_num ∧
      ((smooth_positions [⟨1, 2, 0, 0, 3, 4, 5⟩, ⟨2, 3, 1, 0, 3, 4, 5⟩,
          ⟨3, 4, 0, 1, 3, 4, 5⟩] 5).getD 0 default).timestamp =
        (([⟨1, 2, 0, 0, 3, 4, 5⟩, ⟨2, 3, 1, 0, 3, 4, 5⟩,
          ⟨3, 4, 0, 1, 3, 4, 5⟩] : List FacePosition).getD 0 default).timestamp ∧
      ((smooth_positions [⟨1, 2, 0, 0, 3, 4, 5⟩, ⟨2, 3, 1, 0, 3, 4, 5⟩,
          ⟨3, 4, 0, 1, 3, 4, 5⟩] 5).getD 0 default).width =
        (([⟨1, 2, 0, 0, 3, 4, 5⟩, ⟨2, 3, 1, 0, 3, 4, 5⟩,
          ⟨3, 4, 0, 1, 3, 4, 5⟩] : List FacePosition).getD 0 default).width ∧
      ((smooth_positions [⟨1, 2, 0, 0, 3, 4, 5⟩, ⟨2, 3, 1, 0, 3, 4, 5⟩,
          ⟨3, 4, 0, 1, 3, 4, 5⟩] 5).getD 0 default).height =
        (([⟨1, 2, 0, 0, 3, 4, 5⟩, ⟨2, 3, 1, 0, 3, 4, 5⟩,
          ⟨3, 4, 0, 1, 3, 4, 5⟩] : List FacePosition).getD 0 default).height ∧
      ((smooth_positions [⟨1, 2, 0, 0, 3, 4, 5⟩, ⟨2, 3, 1, 0, 3, 4, 5⟩,
          ⟨3, 4, 0, 1, 3, 4, 5⟩] 5).getD 0 default).confidence =
        (([⟨1, 2, 0, 0, 3, 4, 5⟩, ⟨2, 3, 1, 0, 3, 4, 5⟩,
          ⟨3, 4, 0, 1, 3, 4, 5⟩] : List FacePosition).getD 0 default).confidence := by
  refine ⟨(smooth_same_length_and_fields _ 5).1, ?_⟩
  exact (smooth_same_length_and_fields [⟨1, 2, 0, 0, 3, 4, 5⟩, ⟨2, 3, 1, 0, 3, 4, 5⟩,
    ⟨3, 4, 0, 1, 3, 4, 5⟩] 5).2 0 (by decide)

/-- C8 counterexample: the number of tuples produced for an empty
position list is `int((end - start) * fps)` (truncation), not
`round((end - start) * fps)`: at `fps = 29.97`, `start = 0`,
`end = 0.5` the code produces 14 tuples while rounding would give 15. -/
theorem interpolate_count_not_round_cex :
    (interpolate_positions [] (2997/100) 0 (1/2)).length ≠
      (round ((((1 : ℚ)/2) - 0) * (2997/100))).toNat := by
  have h1 : pyInt ((((1 : ℚ)/2) - 0) * (2997/100)) = 14 := by norm_num [pyInt]
  have h2 : round ((((1 : ℚ)/2) - 0) * (2997/100)) = 15 := by norm_num [round_eq]
  unfold interpolate_positions
  rw [if_pos rfl]
  simp only [List.length_map, List.length_range]
  rw [h1, h2]
  decide

/-- C8 amended: interpolating an empty position list over `fps`,
`start`, `end` returns exactly `int((end - start) * fps)` tuples
(truncation, not rounding), each with center equal to the fixed default
(0.5, 0.4); in particular, for `fps = 30`, `start = 0`, `end = 2` it
returns exactly 60 tuples, all with the default center. -/
theorem interpolate_empty_default_center (fps s e : ℚ) :
    (interpolate_positions [] fps s e).length = (pyInt ((e - s) * fps)).toNat ∧
      (∀ p ∈ interpolate_positions [] fps s e, p.2.1 = 1/2 ∧ p.2.2 = 2/5) ∧
      (interpolate_positions [] (30 : ℚ) 0 2).length = 60 := by
  refine ⟨?_, ?_, ?_⟩
  · unfold interpolate_positions
    rw [if_pos rfl]
    simp only [List.length_map, List.length_range]
  · intro p hp
    simp only [interpolate_positions, if_pos, List.mem_map] at hp
    obtain ⟨i, _, rfl⟩ := hp
    exact ⟨rfl, rfl⟩
  · have h : pyInt (((2 : ℚ) - 0) * 30) = 60 := by norm_num [pyInt]
    unfold interpolate_positions
    rw [if_pos rfl]
    simp only [List.length_map, List.length_range, h]
    decide

/-- Witness for `interpolate_empty_default_center`: the first of the two
tuples produced for `fps = 1`, `start = 0`, `end = 2` has the default
center, and the 60-tuple case. -/
theorem interpolate_empty_default_center_witness :
    ((interpolate_positions [] 1 0 2).getD 0 (0, 0, 0)).2.1 = 1/2 ∧
      ((interpolate_positions [] 1 0 2).getD 0 (0, 0, 0)).2.2 = 2/5 ∧
      (interpolate_positions [] (30 : ℚ) 0 2).length = 60 := by
  have hlen : (interpolate_positions [] (1 : ℚ) 0 2).length = 2 := by
    have h : pyInt (((2 : ℚ) - 0) * 1) = 2 := by norm_num [pyInt]
    unfold interpolate_positions
    rw [if_pos rfl]
    simp only [List.length_map, List.length_range, h]
    decide
  have h0 : 0 < (interpolate_positions [] (1 : ℚ) 0 2).length := by
    rw [hlen]
    decide
  have hmem : (interpolate_positions [] (1 : ℚ) 0 2).getD 0 (0, 0, 0) ∈
      interpolate_positions [] (1 : ℚ) 0 2 := by
    rw [List.getD_eq_getElem _ _ h0]
    exact List.getElem_mem h0
  have hmain := (interpolate_empty_default_center 1 0 2).2.1 _ hmem
  exact ⟨hmain.1, hmain.2, (interpolate_empty_default_center 1 0 2).2.2⟩

/-- C9: whenever the external transcode or mux invocation exits with a
non-zero status, the renderer deletes the output artifact (and, in
dynamic mode, also the silent intermediate file) before raising, and the
raised error message carries the process stderr text verbatim. -/
theorem render_failure_cleanup (fs : List String) (out temp : String)
    (proc : ProcOutcome) (hfail : proc.exit_ok = false) :
    (run_static_render fs out proc).isFailed = true ∧
    (run_static_render fs out proc).message =
      "Failed to cut clip with tracking: " ++ proc.stderr ∧
    out ∉ (run_static_render fs out proc).fsAfter ∧
    (run_dynamic_mux fs temp out proc).isFailed = true ∧
    (run_dynamic_mux fs temp out proc).message =
      "Failed to add audio: " ++ proc.stderr ∧
    out ∉ (run_dynamic_mux fs temp out proc).fsAfter ∧
    temp ∉ (run_dynamic_mux fs temp out proc).fsAfter := by
  simp [run_static_render, run_dynamic_mux, hfail, RenderResult.isFailed,
    RenderResult.message, RenderResult.fsAfter, List.mem_filter]

/-- Witness for `render_failure_cleanup` at a concrete failing
invocation. -/
theorem render_failure_cleanup_witness :
    (run_static_render ["src.mp4"] "clip.mp4" ⟨false, "boom", true⟩).isFailed = true ∧
    (run_static_render ["src.mp4"] "clip.mp4" ⟨false, "boom", true⟩).message =
      "Failed to cut clip with tracking: " ++ "boom" ∧
    "clip.mp4" ∉ (run_static_render ["src.mp4"] "clip.mp4"
      ⟨false, "boom", true⟩).fsAfter ∧
    (run_dynamic_mux ["src.mp4"] "clip_temp.mp4" "clip.mp4"
      ⟨false, "boom", true⟩).isFailed = true ∧
    (run_dynamic_mux ["src.mp4"] "clip_temp.mp4" "clip.mp4"
      ⟨false, "boom", true⟩).message = "Failed to add audio: " ++ "boom" ∧
    "clip.mp4" ∉ (run_dynamic_mux ["src.mp4"] "clip_temp.mp4" "clip.mp4"
      ⟨false, "boom", true⟩).fsAfter ∧
    "clip_temp.mp4" ∉ (run_dynamic_mux ["src.mp4"] "clip_temp.mp4" "clip.mp4"
      ⟨false, "boom", true⟩).fsAfter :=
  render_failure_cleanup ["src.mp4"] "clip.mp4" "clip_temp.mp4" ⟨false, "boom", true⟩ rfl

/-- C10: the face-sampling loop terminates only under the precondition
`int(sample_interval * fps) ≥ 1`: with step ≥ 1 it finishes within
`(end_frame - start_frame) + 1` iterations, while for
`0 ≤ sample_interval * fps < 1` the step is 0, the capture position is
reset to the same frame every iteration, and no amount of fuel finishes
the loop when the start frame is readable and before the end frame. -/
theorem detect_loop_termination (i fps : ℚ) (frame_num end_frame total_frames : ℤ) :
    (1 ≤ sample_frames i fps →
      (detect_loop_run ((end_frame - frame_num).toNat + 1) frame_num end_frame
          (sample_frames i fps) total_frames).isSome = true) ∧
    (0 ≤ i * fps → i * fps < 1 → frame_num < end_frame → frame_num < total_frames →
      sample_frames i fps = 0 ∧
        ∀ fuel, detect_loop_run fuel frame_num end_frame (sample_frames i fps)
            total_frames = none) := by
  constructor
  · intro hstep
    exact detect_loop_run_isSome _ _ _ hstep _ _ (by omega)
  · intro h0 h1 hf ht
    have hz : sample_frames i fps = 0 := by
      rw [sample_frames, pyInt_eq_floor h0, Int.floor_eq_zero_iff]
      exact Set.mem_Ico.mpr ⟨h0, h1⟩
    refine ⟨hz, fun fuel => ?_⟩
    rw [hz]
    exact detect_loop_run_stuck _ _ _ hf ht fuel

/-- Witness for `detect_loop_termination`: with `interval = 0.5`,
`fps = 4` the loop over frames 0..10 finishes; with `interval = 0.25`,
`fps = 2` the step is 0 and 7 units of fuel do not finish it. -/
theorem detect_loop_termination_witness :
    (detect_loop_run (((10 : ℤ) - 0).toNat + 1) 0 10 (sample_frames (1/2) 4)
        100).isSome = true ∧
      sample_frames (1/4) 2 = 0 ∧
      detect_loop_run 7 0 10 (sample_frames (1/4) 2) 100 = none := by
  have h1 := (detect_loop_termination (1/2) 4 0 10 100).1
    (by norm_num [sample_frames, pyInt])
  have h2 := (detect_loop_termination (1/4) 2 0 10 100).2 (by norm_num) (by norm_num)
    (by decide) (by decide)
  exact ⟨h1, h2.1, h2.2 7⟩

end Reframer
